import Mathlib

/-
Verification of the fcavani/httprouter dispatch engine, language negotiator
and buffered response writer against their natural-language specification.

The Go sources are shallowly embedded:
  * `ResponseWriter` (responsewriter.go) becomes the structure `RW`;
  * the language negotiator (typeparams file: `less`, `Parse`, `ParseLang`,
    `IsPresent`, `comptypes`, `rankType`, `FindBest`) becomes executable
    functions on `TypeParam`;
  * the dispatcher (`router.go`: `ServeHTTP`, `Lookup`, `allowed`,
    `selectLang`, `redirLang`, `splitPath`) becomes functions over a router
    model `RouterM`; the per-method trie (tree.go, not part of the sources
    given) is abstracted as a per-method function `TrieEntry` returning the
    tuple `getValue` produces, so dispatch control flow is modelled exactly
    while trie internals stay opaque;
  * the goroutine/select cancellation protocol of `ServeHTTP` is modelled
    twice: sequentially (the race outcome is an oracle parameter) and, for
    the shared-buffer interference questions, as traces of atomic events on
    the shared `RW`.
Go strings are modelled as Lean `String` (ASCII data throughout the claims;
Go byte indexing coincides with character indexing there), Go maps as
association lists (map iteration order is arbitrary in Go; theorems below
only use order-insensitive observables or singleton maps).
-/

namespace HR

/-- Param is a single URL parameter (router.go `Param`). -/
structure Param where
  key : String
  value : String
deriving DecidableEq, Repr

/-- Params is the ordered parameter slice (router.go `Params`). -/
def Params := List Param
deriving DecidableEq

/-- Model of the buffered response writer (responsewriter.go `ResponseWriter`):
an http.Header map (association list of key/values), the status code
(0 = unset) and the body buffer. -/
structure RW where
  header : List (String × List String)
  code : Nat
  buffer : String
deriving DecidableEq, Repr

/-- Fresh response writer (responsewriter.go `NewResponseWriter`). -/
def RW.new : RW := { header := [], code := 0, buffer := "" }

/-- Http.Header Set: replaces the values of the key (the header is a Go
map, so keys are unique: every header in this development is built from
the empty map by this update). -/
def headerSetList (h : List (String × List String)) (k v : String) :
    List (String × List String) :=
  match h with
  | [] => [(k, [v])]
  | (k', vs) :: t => if k' = k then (k, [v]) :: t
                     else (k', vs) :: headerSetList t k v

/-- Http.Header Get: first value of the key, "" when absent. -/
def headerGetList (h : List (String × List String)) (k : String) : String :=
  match h with
  | [] => ""
  | (k', vs) :: t => if k' = k then vs.headD "" else headerGetList t k

/-- Header().Set on the buffered writer. -/
def RW.headerSet (w : RW) (k v : String) : RW :=
  { w with header := headerSetList w.header k v }

/-- Header().Get on the buffered writer. -/
def RW.headerGet (w : RW) (k : String) : String := headerGetList w.header k

/-- WriteHeader (responsewriter.go): unconditionally records the code. -/
def RW.writeHeader (w : RW) (c : Nat) : RW := { w with code := c }

/-- Write (responsewriter.go): appends to the body buffer. -/
def RW.write (w : RW) (s : String) : RW := { w with buffer := w.buffer ++ s }

/-- Reset (responsewriter.go lines 87-91): zeroes the code and replaces the
header map and the body buffer with fresh empty ones. -/
def RW.reset (_ : RW) : RW := { header := [], code := 0, buffer := "" }

/-- Status texts of net/http StatusText for the codes this router emits. -/
def statusText (c : Nat) : String :=
  if c = 200 then "OK"
  else if c = 301 then "Moved Permanently"
  else if c = 307 then "Temporary Redirect"
  else if c = 308 then "Permanent Redirect"
  else if c = 404 then "Not Found"
  else if c = 405 then "Method Not Allowed"
  else if c = 408 then "Request Timeout"
  else if c = 500 then "Internal Server Error"
  else ""

/-- Model of net/http `Error(w, error, code)`: sets the two standard error
headers, writes the status code and prints the message with a newline. -/
def httpError (w : RW) (msg : String) (c : Nat) : RW :=
  let w := w.headerSet "Content-Type" "text/plain; charset=utf-8"
  let w := w.headerSet "X-Content-Type-Options" "nosniff"
  let w := w.writeHeader c
  w.write (msg ++ "\n")

/-- Model of net/http `Redirect(w, r, url, code)` for requests whose URL is a
plain path (no escaping needed): sets Location, and for GET requests without
a preset Content-Type also sets an HTML Content-Type, writes the code, and
for such GET requests prints the small HTML body (Fprintln appends "\n"). -/
def httpRedirect (w : RW) (method url : String) (c : Nat) : RW :=
  let hadCT := w.headerGet "Content-Type" ≠ ""
  let w := w.headerSet "Location" url
  let w := if ¬hadCT ∧ method = "GET"
           then w.headerSet "Content-Type" "text/html; charset=utf-8" else w
  let w := w.writeHeader c
  if ¬hadCT ∧ method = "GET"
  then w.write ("<a href=\"" ++ url ++ "\">" ++ statusText c ++ "</a>.\n\n" ++ "\n")
  else w

/-- ASCII whitespace test (the claims' data is ASCII, where Go's
unicode.IsSpace coincides with this test). -/
def chIsSpace (c : Char) : Bool := c = ' ' ∨ c = '\t' ∨ c = '\n' ∨ c = '\r'

/-- ASCII lower-casing of one character (Go strings.ToLower on the ASCII
data of the claims). -/
def chToLower (c : Char) : Char :=
  if 'A' ≤ c ∧ c ≤ 'Z' then Char.ofNat (c.toNat + 32) else c

/-- Character-list splitting on a separator, with Go strings.Split
semantics for a one-character separator: always at least one piece, empty
pieces kept. -/
def chSplit (sep : Char) : List Char → List (List Char)
  | [] => [[]]
  | c :: t =>
    let r := chSplit sep t
    if c = sep then [] :: r
    else
      match r with
      | [] => [[c]]
      | x :: xs => (c :: x) :: xs

/-- Go `strings.Split(s, sep)` for the one-character separators this code
base uses ("/", ",", ";", "-", "=", "."), as a structurally recursive
function (so that concrete evaluation is kernel-reducible). -/
def strSplit (s : String) (sep : Char) : List String :=
  (chSplit sep s.toList).map String.mk

/-- Go `strings.Join` / the joining this code base does. -/
def strIntercalate (sep : String) : List String → String
  | [] => ""
  | [x] => x
  | x :: t => x ++ sep ++ strIntercalate sep t

/-- Character-list prefix test. -/
def chPrefix : List Char → List Char → Bool
  | [], _ => true
  | _ :: _, [] => false
  | a :: as, b :: bs => a = b && chPrefix as bs

/-- Go `strings.HasPrefix` / String.startsWith, kernel-reducible. -/
def strStartsWith (s pre : String) : Bool := chPrefix pre.toList s.toList

/-- Suffix test (`path[len(path)-1] == '/'` and friends), kernel-reducible. -/
def strEndsWith (s suf : String) : Bool :=
  chPrefix suf.toList.reverse s.toList.reverse

/-- Go `strings.TrimSpace` on the ASCII data of the claims. -/
def strTrim (s : String) : String :=
  ⟨((s.toList.dropWhile chIsSpace).reverse.dropWhile chIsSpace).reverse⟩

/-- Go `strings.ToLower` on the ASCII data of the claims. -/
def strToLower (s : String) : String := ⟨s.toList.map chToLower⟩

/-- Drop the first n characters (Go slicing s[n:] on ASCII data). -/
def strDrop (s : String) (n : Nat) : String := ⟨s.toList.drop n⟩

/-- Drop the last n characters (Go slicing s[:len(s)-n] on ASCII data). -/
def strDropRight (s : String) (n : Nat) : String :=
  ⟨(s.toList.reverse.drop n).reverse⟩

/-- Model of Go `strings.SplitN(s, sep, 2)` for a one-character separator:
the piece before the first separator and the (unsplit) rest, or the whole
string when the separator does not occur. -/
def splitN2 (s : String) (sep : Char) : List String :=
  match strSplit s sep with
  | [] => [s]
  | [x] => [x]
  | x :: rest => [x, strIntercalate (String.mk [sep]) rest]

/-- Model of router.go `splitPath`: split on "/", drop empty elements, trim
the rest (Go strings.TrimSpace; the paths in the claims are ASCII). -/
def splitPath (path : String) : List String :=
  ((strSplit path '/').filter (fun e => e ≠ "")).map strTrim

/-- TypeParam is one negotiation entry: the tag and its quality times 1000
(typeparams source `TypeParam`; int32 modelled as Int, the values involved
are tiny). -/
structure TypeParam where
  type : String
  Q : Int
deriving DecidableEq, Repr

/-- Model of the negotiator's comparator `less(l, r)` (typeparams source
lines 48-83), ported branch for branch.  `less l r = true` means l ranks
below r in desirability. -/
def less (l r : TypeParam) : Bool :=
  if l.type = "*/*" ∨ l.type = "*" then true
  else if l.Q = r.Q then
    if l.type = r.type then false
    else
      match splitN2 l.type '/', splitN2 r.type '/' with
      | [si0, si1], [sj0, sj1] =>
        if si0 = sj0 then
          if si1 = "*" then false
          else decide ((strSplit si1 ';').length < (strSplit sj1 ';').length)
        else false
      | _, _ =>
        if l.type.length < r.type.length then true else false
  else decide (l.Q < r.Q)

/-- Sort order used by sort.Sort on TypeParams: `Less(i, j) = !less(tps[i],
tps[j])`, so the list is kept descending in desirability. -/
def tpLE (a b : TypeParam) : Bool := ¬ less a b

/-- Model of Go `sort.IsSorted` on TypeParams: no adjacent pair may satisfy
`Less(i, i-1)`, i.e. every element must be `less` than its predecessor. -/
def isSortedTPs : List TypeParam → Bool
  | [] => true
  | [_] => true
  | a :: b :: t => less b a && isSortedTPs (b :: t)

/-- Insertion of one element for the comparison sort model. -/
def insertTP (a : TypeParam) : List TypeParam → List TypeParam
  | [] => [a]
  | b :: t => if tpLE a b then a :: b :: t else b :: insertTP a t

/-- Model of Go `sort.Sort` on TypeParams.  sort.Sort is an unspecified
in-place comparison sort; it is modelled as an insertion sort by the same
comparator.  Every theorem below that evaluates a sorted list either hits
the `IsSorted` short-circuit of the source (so no sorting runs at all) or
only uses permutation-invariant observables. -/
def sortTPs (l : List TypeParam) : List TypeParam :=
  if isSortedTPs l then l else l.foldr insertTP []

/-- Loop of Go `sort.Search(n, f)`: binary search over [i, j) for the least
index the predicate accepts, assuming f monotone (the source calls it with
an equality predicate, which is exactly what claim C7 is about).  The
interval shrinks strictly every iteration, so fuel `n` makes the recursion
structural without changing the computed value. -/
def sortSearchLoop : Nat → Nat → Nat → (Nat → Bool) → Nat
  | 0, i, _, _ => i
  | fuel + 1, i, j, f =>
    if i < j then
      let m := (i + j) / 2
      if f m then sortSearchLoop fuel i m f else sortSearchLoop fuel (m + 1) j f
    else i

/-- Go sort.Search entry point. -/
def sortSearch (n : Nat) (f : Nat → Bool) : Nat := sortSearchLoop n 0 n f

/-- Model of `TypeParams.IsPresent` (typeparams source lines 95-101): a
binary search (sort.Search) with the predicate `tps[i].Type == t` (Go field Type, Lean field `type`), then a
bounds-and-equality check on the returned index. -/
def IsPresent (tps : List TypeParam) (t : String) : Bool :=
  let i := sortSearch tps.length (fun i => (tps.getD i ⟨"", 0⟩).type = t)
  i < tps.length && (tps.getD i ⟨"", 0⟩).type = t

/-- Digit-string to Nat ("" is not accepted). -/
def parseDigits (cs : List Char) : Option Nat :=
  if cs = [] then none
  else cs.foldl (fun acc c => match acc with
    | none => none
    | some n => if c.isDigit then some (n * 10 + (c.toNat - 48)) else none) (some 0)

/-- Model of `int32(strconv.ParseFloat(s, 64) * 1000.0)` for plain decimal
literals: the decimal value in thousandths, truncated toward zero.  (Go
computes this through a float64; for every quality value evaluated by a
theorem in this file the float computation is exact, e.g. 0.5*1000 = 500.0.
Exponent forms and inf/nan, which ParseFloat would accept, are rejected
here; no claim depends on them.) -/
def parseQ (s : String) : Option Int :=
  let (neg, body) :=
    if strStartsWith s "-" then (true, strDrop s 1)
    else if strStartsWith s "+" then (false, strDrop s 1) else (false, s)
  let milli : Option Nat :=
    match strSplit body '.' with
    | [ip] => (parseDigits ip.toList).map (· * 1000)
    | [ip, fp] =>
      if ip = "" ∧ fp = "" then none
      else
        let ipv := if ip = "" then some 0 else parseDigits ip.toList
        let fp3 := (fp.toList ++ ['0', '0', '0']).take 3
        let fpv := if fp = "" then some 0
                   else if fp.toList.all Char.isDigit then parseDigits fp3 else none
        match ipv, fpv with
        | some i, some f => some (i * 1000 + f)
        | _, _ => none
    | _ => none
  milli.map (fun m => if neg then -(m : Int) else (m : Int))

/-- Parameter loop of `Parse` (typeparams source lines 139-166): walks the
";"-separated parameters of one entry, reading `q=` into the quality and
gluing every other `key=value` parameter back onto the tag. -/
def parseParamsGo (st : String) (q : Int) : List String → Except String TypeParam
  | [] => .ok ⟨st, q⟩
  | m :: t =>
    let m := strTrim m
    if strStartsWith m "q=" then
      match splitN2 m '=' with
      | [_, val] =>
        match parseQ val with
        | some qv => parseParamsGo st qv t
        | none => .error "strconv.ParseFloat: parsing error"
      | _ => .error "small quality value string"
    else
      match splitN2 m '=' with
      | [_, _] => parseParamsGo (st ++ ";" ++ m) q t
      | _ => .error "small token value string"

/-- Model of `Parse` (typeparams source lines 119-175): split the header on
",", parse each entry's tag and quality (default 1000), then sort by the
negotiation order unless already sorted. -/
def Parse (s : String) : Except String (List TypeParam) :=
  if s.length = 0 then .error "invalid type/parameter"
  else do
    let tps ← (strSplit s ',').mapM (fun mp =>
      match strSplit mp ';' with
      | [] => .error "invalid index"
      | [one] => .ok (⟨strTrim one, 1000⟩ : TypeParam)
      | m0 :: rest => parseParamsGo (strTrim m0) 1000 rest)
    return sortTPs tps

/-- Association-list update used for the `tpdmap` of ParseLang. -/
def updAssocQ : List (String × Int) → String → Int → List (String × Int)
  | [], k, v => [(k, v)]
  | (k', v') :: t, k, v => if k' = k then (k, v) :: t else (k', v') :: updAssocQ t k v

/-- Family-fallback accumulation step of `ParseLang` (typeparams source
lines 184-198): for a tag of the form lang-REGION whose bare lang the
(broken, see C7) `IsPresent` does not find in the parsed list, record the
bare lang in the map, keeping the maximum quality seen. -/
def langFallbackStep (tps : List TypeParam) (acc : List (String × Int))
    (tp : TypeParam) : List (String × Int) :=
  match splitN2 tp.type '-' with
  | [s0, _] =>
    if IsPresent tps s0 then acc
    else
      match acc.lookup s0 with
      | some x => if tp.Q > x then updAssocQ acc s0 tp.Q else acc
      | none => acc ++ [(s0, tp.Q)]
  | _ => acc

/-- Model of `ParseLang` (typeparams source lines 179-206): parse, then merge
the synthesized family-fallback entries, then sort unless already sorted.
The Go `tpdmap` is a map iterated in arbitrary order; it is modelled in
insertion order (the theorems below evaluate it with at most one entry). -/
def ParseLang (s : String) : Except String (List TypeParam) :=
  (Parse s).map (fun tps =>
    let tpd := tps.foldl (langFallbackStep tps) []
    sortTPs (tps ++ tpd.map (fun p => (⟨p.1, p.2⟩ : TypeParam))))

/-- Model of `comptypes` (typeparams source lines 209-255): compares two
type strings, treating `*` segments as wildcards, then requires the
`;`-parameter lists to agree when either side has parameters. -/
def comptypes (l r : String) : Bool :=
  if l = r then true
  else
    let ltp := strSplit (strToLower l) ';'
    let rtp := strSplit (strToLower r) ';'
    if ltp.length = 0 ∨ rtp.length = 0 then false
    else
      let ls := splitN2 (ltp.headD "") '/'
      let rs := splitN2 (rtp.headD "") '/'
      let ls0 := ls.getD 0 ""
      let ls1 := ls.getD 1 ""
      let rs0 := rs.getD 0 ""
      let rs1 := rs.getD 1 ""
      if ls.length = 0 ∨ rs.length = 0 then false
      else if (ls.length = 1 ∧ ls0 = "*" ∧ rs.length ≥ 1)
           ∨ (ls.length = 2 ∧ rs.length = 2 ∧ ls0 = "*" ∧ ls1 = "*")
           ∨ (ls.length = rs.length ∧ rs.length = 2 ∧ ls0 = "*" ∧ ls1 ≠ "*"
              ∧ rs0 ≠ "" ∧ rs0 ≠ " " ∧ ls1 = rs1)
           ∨ (ls.length = rs.length ∧ rs.length = 2 ∧ ls0 ≠ "*" ∧ ls1 = "*"
              ∧ rs1 ≠ "" ∧ rs1 ≠ " " ∧ ls0 = rs0) then
        if ltp.length < 2 ∧ rtp.length < 2 then true
        else if ltp.length ≠ rtp.length then false
        else (ltp.tail.zip rtp.tail).all (fun p => p.1 = p.2)
      else false

/-- Model of `rankType` (typeparams source lines 258-265): quality of the
first compatible entry, -1 when none is. -/
def rankType (tps : List TypeParam) (t : String) : Int :=
  match tps.find? (fun tp => comptypes tp.type t) with
  | some tp => tp.Q
  | none => -1

/-- Model of `FindBest` (typeparams source lines 268-287).  The supported
set is a Go map iterated in arbitrary order, modelled as a list; the
theorems below use it only through `acceptedLanguage` with an absent
header, or not at all. -/
def FindBest (tps : List TypeParam) (vs : List String) : String :=
  if vs = [] then ""
  else
    (vs.foldl (fun best s =>
      let s := strTrim s
      let tp : TypeParam := ⟨s, rankType tps s⟩
      if tp.Q > -1 ∧ less best tp then tp else best) (⟨"", 0⟩ : TypeParam)).type

/-- Handler model: the effect a handler invocation has on the buffered
response writer.  (Go handlers receive `(w, req)`; the request argument,
including the Params/UASelectedLang context values the router installs, is
absorbed into the choice of function, which is enough for every observable
the claims speak about.) -/
def Handler := RW → RW

/-- Result tuple of tree.go `getValue(path)` as consumed by router.go:
handler (nil-able), params (nil-able), the route's i18n flag, and the
trailing-slash recommendation. -/
structure TrieRes where
  handle : Option Handler
  ps : Option Params
  i18n : Bool
  tsr : Bool

/-- TrieRes for a path with no match at all. -/
def TrieRes.empty : TrieRes := ⟨none, none, false, false⟩

/-- Per-method trie abstraction: `getValue` is tree.go getValue on that
method's tree, `caseFix` is `findCaseInsensitivePath(CleanPath(path), ...)`
(tree.go + path.go, also not part of the given sources), as total
functions. -/
structure TrieEntry where
  getValue : String → TrieRes
  caseFix : String → Option String

/-- Model of the `Router` configuration and state (router.go lines
132-205).  `trees` is the Go map method→*node, modelled as an association
list of total per-method query functions. -/
structure RouterM where
  trees : List (String × TrieEntry)
  redirectTrailingSlash : Bool
  redirectFixedPath : Bool
  handleMethodNotAllowed : Bool
  handleOPTIONS : Bool
  globalOPTIONS : Option Handler
  globalAllowed : String
  notFound : Option Handler
  methodNotAllowed : Option Handler
  supportedLangs : List String
  defaultLang : String

/-- Request model: method, URL path, and the Accept-Language header value
("" when absent).  Requests are modelled with plain path-only URLs, so
`req.URL.String()` in the source is `path` here (the server-wide OPTIONS
request uses path "*").  `uaLang` models the "UASelectedLang" context
value selectLang installs. -/
structure Request where
  method : String
  path : String
  acceptLanguage : String
  uaLang : Option String := none

/-- Collection loop of `allowed` for a concrete path (router.go lines
434-445): every registered method other than the requested one and OPTIONS
whose tree has a handler at the path. -/
def allowedCollect (r : RouterM) (path reqMethod : String) : List String :=
  r.trees.filterMap (fun p =>
    if p.1 = reqMethod ∨ p.1 = "OPTIONS" then none
    else if ((p.2.getValue path).handle).isSome then some p.1 else none)

/-- Tail of `allowed` (router.go lines 448-464): if anything was collected,
append OPTIONS, sort ascending (the source's in-place insertion sort is
modelled by `List.insertionSort`) and join with ", "; otherwise "". -/
def allowedJoin (l : List String) : String :=
  if l = [] then ""
  else strIntercalate ", " (List.insertionSort (· ≤ ·) (l ++ ["OPTIONS"]))

/-- Model of `Router.allowed` (router.go lines 417-465). -/
def allowed (r : RouterM) (path reqMethod : String) : String :=
  if path = "*" then
    if reqMethod = "" then
      allowedJoin (r.trees.filterMap (fun p =>
        if p.1 = "OPTIONS" then none else some p.1))
    else r.globalAllowed
  else allowedJoin (allowedCollect r path reqMethod)

/-- Model of `acceptedLanguage` (router.go lines 693-708). -/
def acceptedLanguage (r : RouterM) (req : Request) : String :=
  if req.acceptLanguage = "" then ""
  else
    match ParseLang (strToLower req.acceptLanguage) with
    | .error _ => ""
    | .ok parsed => FindBest parsed r.supportedLangs

/-- Model of `redirLang` (router.go lines 710-717): 301 for GET, 307
otherwise; prefixes the URL path with the language and redirects there.
Returns the written writer and the request with its URL path mutated. -/
def redirLang (w : RW) (req : Request) (lang : String) : RW × Request :=
  let code := if req.method ≠ "GET" then 307 else 301
  let newPath := "/" ++ lang ++ req.path
  (httpRedirect w req.method newPath code, { req with path := newPath })

/-- Model of `selectLang` (router.go lines 617-661): pick the language from
the Accept-Language header (else the default), then look at the URL's first
segment; a supported first segment becomes the language and is stripped
from the returned path, anything else short-circuits by writing a redirect
to the language-prefixed URL — after which the caller keeps going (claim
C1).  Returns (writer, request-with-context-lang, stripped path). -/
def selectLang (r : RouterM) (w : RW) (req : Request) :
    RW × Request × String :=
  let selectedLang := r.defaultLang
  let path := req.path
  let selectedLang :=
    match acceptedLanguage r req with
    | "" => selectedLang
    | l => l
  if req.path ≠ "*" then
    let trailSlash := strEndsWith path "/"
    match splitPath path with
    | c :: rest =>
      if c ∈ r.supportedLangs then
        let selectedLang := c
        let path :=
          if rest ≠ [] then
            let p := "/" ++ strIntercalate "/" rest
            if trailSlash then p ++ "/" else p
          else "/"
        (w, { req with uaLang := some selectedLang }, path)
      else
        let req := { req with uaLang := some selectedLang }
        let (w, req) := redirLang w req selectedLang
        (w, req, path)
    | [] =>
      let req := { req with uaLang := some selectedLang }
      let (w, req) := redirLang w req selectedLang
      (w, req, path)
  else (w, { req with uaLang := some selectedLang }, path)

/-- Outcome oracle for the `select` race between the handler-completion
channel and `ctx.Done()` (router.go lines 522-549). -/
inductive CtxErr | canceled | deadlineExceeded | other
deriving DecidableEq, Repr

/-- RaceOutcome says which `select` arm fired first. -/
inductive RaceOutcome | handlerDone | ctxSignal (e : CtxErr)
deriving DecidableEq, Repr

/-- Model of the wildcard-free execution branch of ServeHTTP (router.go
lines 494-549): on handler completion the buffer stands as the handler
left it; on a context signal the buffer is reset and replaced by the error
response the `switch ctx.Err()` chooses. -/
def runRace (h : Handler) (w : RW) (o : RaceOutcome) : RW :=
  match o with
  | .handlerDone => h w
  | .ctxSignal e =>
    let w := w.reset
    match e with
    | .canceled => httpError w "Context canceled" 500
    | .deadlineExceeded => httpError w (statusText 408) 408
    | .other => httpError w (statusText 500) 500

/-- Model of the 404 tail of ServeHTTP (router.go lines 609-614). -/
def notFoundTail (r : RouterM) (w : RW) : RW :=
  match r.notFound with
  | some h => h w
  | none => httpError w "404 page not found" 404

/-- Model of the OPTIONS / 405 / 404 tail of ServeHTTP (router.go lines
585-614). -/
def fallbackTail (r : RouterM) (w : RW) (req : Request) : RW :=
  if req.method = "OPTIONS" ∧ r.handleOPTIONS then
    let allow := allowed r req.path "OPTIONS"
    if allow ≠ "" then
      let w := w.headerSet "Allow" allow
      match r.globalOPTIONS with
      | some g => g w
      | none => w
    else notFoundTail r w
  else if r.handleMethodNotAllowed then
    let allow := allowed r req.path req.method
    if allow ≠ "" then
      let w := w.headerSet "Allow" allow
      match r.methodNotAllowed with
      | some h => h w
      | none => httpError w (statusText 405) 405
    else notFoundTail r w
  else notFoundTail r w

/-- Model of `ServeHTTP` (router.go lines 468-615) on a fresh buffered
writer; the returned RW is what the deferred `w.Copy(rw)` commits to the
transport.  The select race of the wildcard-free branch is resolved by the
oracle `o`; the shared-buffer interference of the detached goroutine is
studied separately in the trace model below (claim C3). -/
def ServeHTTP (r : RouterM) (req : Request) (o : RaceOutcome) : RW :=
  let w := RW.new
  let path := req.path
  match r.trees.lookup req.method with
  | some root =>
    let res := root.getValue path
    match res.handle with
    | some handle =>
      let s := if r.defaultLang ≠ "" ∧ res.i18n = true
               then selectLang r w req else (w, req, path)
      let w := s.1
      match res.ps with
      | some _ => handle w
      | none => runRace handle w o
    | none =>
      if req.method ≠ "CONNECT" ∧ path ≠ "/" then
        let code := if req.method ≠ "GET" then 308 else 301
        if res.tsr ∧ r.redirectTrailingSlash then
          let newPath :=
            if path.length > 1 ∧ strEndsWith path "/"
            then strDropRight path 1 else path ++ "/"
          httpRedirect w req.method newPath code
        else if r.redirectFixedPath then
          match root.caseFix path with
          | some fixed => httpRedirect w req.method fixed code
          | none => fallbackTail r w req
        else fallbackTail r w req
      else fallbackTail r w req
  | none => fallbackTail r w req

/-- Query path `Lookup` hands to the trie (router.go lines 383-401): when a
default language is configured, a supported first segment followed by more
segments is stripped, and then — stripped or not — a "/" is appended
whenever the original path ended in "/". -/
def lookupQueryPath (r : RouterM) (path : String) : String :=
  let trailSlash := strEndsWith path "/"
  if r.defaultLang ≠ "" then
    let stripped :=
      match splitPath path with
      | [] => path
      | c :: rest =>
        if c ∈ r.supportedLangs ∧ rest ≠ []
        then "/" ++ strIntercalate "/" rest else path
    if trailSlash then stripped ++ "/" else stripped
  else path

/-- Model of `Router.Lookup` (router.go lines 382-415).  The very first
statement of the source indexes `path[len(path)-1]`, which faults on the
empty string; that fault is the `Except.error` branch.  Everything else is
a pure query of the method's trie at `lookupQueryPath`. -/
def Lookup (r : RouterM) (method path : String) :
    Except String (Option Handler × Option Params × Bool) :=
  if path = "" then .error "runtime error: index out of range"
  else
    let qpath := lookupQueryPath r path
    match r.trees.lookup method with
    | some root =>
      let res := root.getValue qpath
      match res.handle with
      | none => .ok (none, none, res.tsr)
      | some h => .ok (some h, res.ps, res.tsr)
    | none => .ok (none, none, false)

/-- Atomic events on the shared buffered writer in the wildcard-free branch
of ServeHTTP (router.go lines 506-549 plus the deferred `w.Copy(rw)` of
lines 474-476).  `h*` events belong to the detached handler goroutine
(writes, WriteHeader, and the completion signal), `m*` events to the
dispatcher goroutine after `ctx.Done()` fired: the `w.Reset()`, the
`http.Error` write, and the final commit of the buffer to the transport. -/
inductive Ev
  | hWrite (s : String)
  | hCode (n : Nat)
  | hDone
  | mReset
  | mErr (e : CtxErr)
  | mCopy
deriving DecidableEq, Repr

/-- Message http.Error receives in the `switch ctx.Err()` arms. -/
def ctxErrMsg (e : CtxErr) : String :=
  match e with
  | .canceled => "Context canceled"
  | .deadlineExceeded => statusText 408
  | .other => statusText 500

/-- Status code of the `switch ctx.Err()` arms. -/
def ctxErrCode (e : CtxErr) : Nat :=
  match e with
  | .canceled => 500
  | .deadlineExceeded => 408
  | .other => 500

/-- Trace state: the shared writer and the snapshot the transport has
received (none until `Copy` runs). -/
structure TraceState where
  w : RW
  committed : Option RW
deriving DecidableEq, Repr

/-- Effect of one atomic event.  All events act on the same shared writer —
`Reset` swaps the buffer in place, so later handler writes land in the
new, still-active buffer; `mCopy` snapshots the writer to the transport. -/
def stepEv (st : TraceState) (ev : Ev) : TraceState :=
  match ev with
  | .hWrite s => { st with w := st.w.write s }
  | .hCode n => { st with w := st.w.writeHeader n }
  | .hDone => st
  | .mReset => { st with w := st.w.reset }
  | .mErr e => { st with w := httpError st.w (ctxErrMsg e) (ctxErrCode e) }
  | .mCopy => { st with committed := some st.w }

/-- Execution of an interleaving from a fresh writer. -/
def execTrace (tr : List Ev) : TraceState :=
  tr.foldl stepEv ⟨RW.new, none⟩

/-- Checks that `c` is an interleaving of the two programs `as` and `bs`
(program order of each side preserved). -/
def isMerge : List Ev → List Ev → List Ev → Bool
  | [], [], [] => true
  | as, bs, c :: cs =>
    (match as with
     | a :: as' => a = c && isMerge as' bs cs
     | [] => false)
    || (match bs with
        | b :: bs' => b = c && isMerge as bs' cs
        | [] => false)
  | _, _, [] => false

/-- Dispatcher-side program once `ctx.Done()` won the select: reset the
buffer, write the error response, return (running the deferred copy). -/
def mainProg (e : CtxErr) : List Ev := [.mReset, .mErr e, .mCopy]

/-- Pattern segment of a registered route, per the spec's data model
(static, `:name` param, `*name` catch-all). -/
inductive Seg
  | stat (s : String)
  | par (name : String)
  | catch (name : String)
deriving DecidableEq, Repr

/-- Modelled from the spec: pattern parsing for the PathTrie (tree.go is
not among the given sources).  A pattern is read segment-wise: `:x` is a
named parameter, `*x` a catch-all, anything else a literal. -/
def parsePattern (pat : String) : List Seg :=
  ((strSplit pat '/').filter (fun e => e ≠ "")).map (fun s =>
    if strStartsWith s ":" then .par (strDrop s 1)
    else if strStartsWith s "*" then .catch (strDrop s 1)
    else .stat s)

/-- Modelled from the spec: segment matching of `getValue` (§4.1 — a param
segment consumes one path component, a catch-all consumes the remainder
including the leading "/"), collecting wildcard bindings in left-to-right
pattern order.  The trailing-slash/TSR subtleties of the real trie are
outside what claim C9 exercises and are not modelled. -/
def matchSegs : List Seg → List String → Option (List Param)
  | [], [] => some []
  | [Seg.catch n], xs => some [⟨n, "/" ++ strIntercalate "/" xs⟩]
  | Seg.stat s :: ps, x :: xs => if x = s then matchSegs ps xs else none
  | Seg.par n :: ps, x :: xs => (matchSegs ps xs).map (fun l => ⟨n, x⟩ :: l)
  | _, _ => none

/-- Modelled from the spec: the parameter slice `getValue` returns for a
single registered pattern.  tree.go is not among the given sources; the
shape of the result follows the repository's own tests (router test file,
`TestRouter` and `TestRouterLookup`), which show the slice led by an
("i18n", flag-string) entry ahead of the wildcard bindings. -/
def getValuePattern (pattern : String) (i18n : Bool) (path : String) :
    Option (List Param) :=
  (matchSegs (parsePattern pattern) ((strSplit path '/').filter (fun e => e ≠ ""))).map
    (fun ps => ⟨"i18n", if i18n then "true" else "false"⟩ :: ps)

/-- Handler used by the C1 scenario: writes a 200 status and a body, as an
ordinary page handler would. -/
def c1handler : Handler := fun w => (w.writeHeader 200).write "hello"

/-- Trie of the C1 scenario: one i18n-flagged, wildcard-free route at
"/lang" (the situation of the repository's own TestLangRedir). -/
def c1entry : TrieEntry :=
  ⟨fun p => if p = "/lang" then ⟨some c1handler, none, true, false⟩ else TrieRes.empty,
   fun _ => none⟩

/-- Router of the C1 scenario: default-constructed flags, supported
languages pt/en, default language en. -/
def c1router : RouterM :=
  { trees := [("GET", c1entry)], redirectTrailingSlash := true,
    redirectFixedPath := true, handleMethodNotAllowed := true,
    handleOPTIONS := true, globalOPTIONS := none, globalAllowed := "",
    notFound := none, methodNotAllowed := none,
    supportedLangs := ["pt", "en"], defaultLang := "en" }

/-- Request of the C1 scenario: GET /lang with no Accept-Language header,
i.e. the language prefix is missing from the URL, so language resolution
issues a redirect. -/
def c1req : Request := { method := "GET", path := "/lang", acceptLanguage := "" }

/-- C1, counterexample.  The claim says that when language resolution
issues a missing-language-prefix redirect, dispatch stops: the matched
handler is not executed and the committed response is exactly that
redirect.  In the source there is no early return after `selectLang`
(router.go lines 487-489 flow straight into lines 490-550), so the handler
still runs on the same buffer: the committed response carries the
handler's 200 status (not the redirect's 301) and the handler's body
appended after the redirect body. -/
theorem C1_counterexample :
    (ServeHTTP c1router c1req .handlerDone).code = 200
    ∧ (httpRedirect RW.new "GET" "/en/lang" 301).code = 301
    ∧ (ServeHTTP c1router c1req .handlerDone).buffer
        = (httpRedirect RW.new "GET" "/en/lang" 301).buffer ++ "hello"
    ∧ ServeHTTP c1router c1req .handlerDone ≠ httpRedirect RW.new "GET" "/en/lang" 301 := by
  refine ⟨rfl, rfl, rfl, ?_⟩
  decide

/-- C3, counterexample.  The claim says any output the detached handler
produces after the buffer reset lands in a discarded buffer and is never
committed.  `Reset` (responsewriter.go lines 87-91) swaps a fresh buffer
into the *shared* writer the goroutine keeps writing to, so a handler
write between the reset and the deferred `Copy` is committed: below, a
valid interleaving of the handler program and the dispatcher program
commits the body "Context canceled\nLEAK", where "LEAK" was written by
the abandoned handler after the reset. -/
theorem C3_counterexample :
    isMerge [.hWrite "partial", .hWrite "LEAK", .hDone] (mainProg .canceled)
      [.hWrite "partial", .mReset, .mErr .canceled, .hWrite "LEAK", .mCopy, .hDone] = true
    ∧ (execTrace [.hWrite "partial", .mReset, .mErr .canceled,
        .hWrite "LEAK", .mCopy, .hDone]).committed
        = some { header := [("Content-Type", ["text/plain; charset=utf-8"]),
                            ("X-Content-Type-Options", ["nosniff"])],
                 code := 500,
                 buffer := "Context canceled" ++ "\n" ++ "LEAK" } := by
  exact ⟨rfl, rfl⟩

/-- C6, counterexample.  The claim says the ranked order always places a
wildcard tag below every non-wildcard tag regardless of quality.  For the
header "*, en;q=0.5" the parsed list [* q=1000, en q=500] passes the
source's `sort.IsSorted` check unchanged (the comparator `less` answers
true for the non-wildcard pair order because 500 < 1000), so the produced
ranked order has the wildcard `*` ranked above the non-wildcard `en`. -/
theorem C6_counterexample :
    ParseLang "*, en;q=0.5" = .ok [⟨"*", 1000⟩, ⟨"en", 500⟩]
    ∧ less ⟨"en", 500⟩ ⟨"*", 1000⟩ = true := by
  exact ⟨rfl, rfl⟩

/-- C7, the code against the claim at the failing input.  `IsPresent`
(typeparams source lines 95-101) runs `sort.Search` — a binary search
expecting a monotone predicate — with the equality predicate
`tps[i].Type == t` over a list ordered by rank, not by type.  For the
header "en, en-gb;q=0.5" the parsed list is [en q=1000, en-gb q=500]; the
search probes index 1 first, misses the "en" sitting at index 0 and
reports it absent, so ParseLang synthesizes a second "en" entry (q=500)
although the bare lang is already present, contradicting the claim and
the function's own purpose. -/
theorem C7_code_bug :
    (⟨"en", 1000⟩ : TypeParam) ∈ [(⟨"en", 1000⟩ : TypeParam), ⟨"en-gb", 500⟩]
    ∧ IsPresent [⟨"en", 1000⟩, ⟨"en-gb", 500⟩] "en" = false
    ∧ ParseLang "en, en-gb;q=0.5"
        = .ok [⟨"en", 1000⟩, ⟨"en-gb", 500⟩, ⟨"en", 500⟩]
    ∧ ([(⟨"en", 1000⟩ : TypeParam), ⟨"en-gb", 500⟩, ⟨"en", 500⟩].countP
        (fun tp => tp.type = "en")) = 2 := by
  refine ⟨by decide, rfl, rfl, by decide⟩

/-- Router of the C8 scenario: a default language is configured. -/
def c8router : RouterM :=
  { trees := [], redirectTrailingSlash := true,
    redirectFixedPath := true, handleMethodNotAllowed := true,
    handleOPTIONS := true, globalOPTIONS := none, globalAllowed := "",
    notFound := none, methodNotAllowed := none,
    supportedLangs := ["en"], defaultLang := "en" }

/-- C8, counterexample.  The claim says Lookup consults the trie with
exactly the language-free form of the requested path.  For "/user/" no
language prefix is present, so its language-free form is "/user/" itself —
but the source appends the trailing slash unconditionally whenever a
default language is configured (router.go lines 398-400), even though
nothing was stripped, and queries the trie with "/user//". -/
theorem C8_counterexample :
    lookupQueryPath c8router "/user/" = "/user//"
    ∧ ("/user//" : String) ≠ "/user/" := by
  exact ⟨rfl, by decide⟩

/-- C9, counterexample.  The claim says matching /blog/:category/:post
against /blog/go/request-routers yields exactly the two wildcard
parameters and nothing else.  The repository's own tests (TestRouter,
TestRouterLookup in the router test file) show the parameter slice led by
an extra ("i18n", flag) entry, so the handler sees three entries, not
two. -/
theorem C9_counterexample :
    getValuePattern "/blog/:category/:post" false "/blog/go/request-routers"
      ≠ some [⟨"category", "go"⟩, ⟨"post", "request-routers"⟩] := by
  decide

/-- C9, amended.  Matching the registered pattern /blog/:category/:post
against /blog/go/request-routers yields the parameter sequence
[{i18n, false}, {category, go}, {post, request-routers}]: an ("i18n",
flag-string) entry first — as the repository's tests require — followed by
the wildcard parameters in the left-to-right order of the matched pattern,
and no other entries. -/
theorem C9_amended :
    getValuePattern "/blog/:category/:post" false "/blog/go/request-routers"
      = some [⟨"i18n", "false"⟩, ⟨"category", "go"⟩, ⟨"post", "request-routers"⟩] := by
  decide

/-- C3, amended.  Output the detached handler produces after the buffer
reset lands in the same, still-active shared buffer: it is committed
whenever it happens before the deferred `Copy`, and only output written
before the reset (into the replaced buffer) or after the copy is withheld
from the transport.  Below, for any pre-reset handler output w₁ and
post-reset output w₂ and either context error: writing w₂ between the
error write and the copy commits the error response with w₂ appended,
while writing w₂ after the copy commits the bare error response; w₁ never
reaches the transport in either case. -/
theorem C3_amended :
    ∀ (w₁ w₂ : String) (e : CtxErr),
      (execTrace [.hWrite w₁, .mReset, .mErr e, .hWrite w₂, .mCopy, .hDone]).committed
        = some ((httpError RW.new (ctxErrMsg e) (ctxErrCode e)).write w₂)
      ∧ (execTrace [.hWrite w₁, .mReset, .mErr e, .mCopy, .hWrite w₂, .hDone]).committed
        = some (httpError RW.new (ctxErrMsg e) (ctxErrCode e)) := by
  intro w₁ w₂ e
  cases e <;> exact ⟨rfl, rfl⟩

/-- C2.  For a matched wildcard-free route (ps = nil) run under the select
race of router.go lines 506-549, if the derived context's signal wins the
race then the committed response is built on a freshly reset buffer and is
exactly the generic error response — 500 with "Context canceled" for
generic cancellation, 408 with the 408 status text for deadline expiry —
independent of the handler and of anything already in the buffer (so never
the handler's own output). -/
theorem C2_cancel_protocol :
    ∀ (r : RouterM) (req : Request) (root : TrieEntry) (h : Handler) (e : CtxErr),
      r.trees.lookup req.method = some root →
      (root.getValue req.path).handle = some h →
      (root.getValue req.path).ps = none →
      (e = .canceled →
        ServeHTTP r req (.ctxSignal e) = httpError RW.new "Context canceled" 500)
      ∧ (e = .deadlineExceeded →
        ServeHTTP r req (.ctxSignal e) = httpError RW.new (statusText 408) 408) := by
  intro r req root h e h1 h2 h3
  constructor
  · intro he
    subst he
    simp only [ServeHTTP, h1, h2, h3, runRace, RW.reset, RW.new]
  · intro he
    subst he
    simp only [ServeHTTP, h1, h2, h3, runRace, RW.reset, RW.new]

/-- Router for the C2 witness: one wildcard-free matched route whose
handler writes a body that must not survive cancellation. -/
def c2handler : Handler := fun w => (w.writeHeader 200).write "handler body"

/-- Trie entry for the C2 witness. -/
def c2entry : TrieEntry :=
  ⟨fun p => if p = "/x" then ⟨some c2handler, none, false, false⟩ else TrieRes.empty,
   fun _ => none⟩

/-- Router for the C2 witness. -/
def c2router : RouterM :=
  { trees := [("GET", c2entry)], redirectTrailingSlash := true,
    redirectFixedPath := true, handleMethodNotAllowed := true,
    handleOPTIONS := true, globalOPTIONS := none, globalAllowed := "",
    notFound := none, methodNotAllowed := none,
    supportedLangs := ["en"], defaultLang := "" }

/-- Request for the C2 witness. -/
def c2req : Request := { method := "GET", path := "/x", acceptLanguage := "" }

/-- C2, witness: the theorem applied to the concrete router above, for both
the cancellation and the deadline signal. -/
theorem C2_cancel_protocol_witness :
    ServeHTTP c2router c2req (.ctxSignal .canceled)
      = httpError RW.new "Context canceled" 500
    ∧ ServeHTTP c2router c2req (.ctxSignal .deadlineExceeded)
      = httpError RW.new (statusText 408) 408 :=
  ⟨(C2_cancel_protocol c2router c2req c2entry c2handler .canceled rfl rfl rfl).1 rfl,
   (C2_cancel_protocol c2router c2req c2entry c2handler .deadlineExceeded rfl rfl rfl).2 rfl⟩

/-- C10.  Lookup is not total: its first statement indexes
`path[len(path)-1]` (router.go line 384) before consulting any trie, so the
empty path faults for every method and every router configuration, and the
call succeeds whenever the path is non-empty. -/
theorem C10_lookup_empty_path :
    ∀ (r : RouterM) (method path : String),
      (path = "" → Lookup r method path = .error "runtime error: index out of range")
      ∧ (path ≠ "" → ∃ v, Lookup r method path = .ok v) := by
  intro r method path
  constructor
  · intro he
    subst he
    rfl
  · intro hne
    unfold Lookup
    rw [if_neg hne]
    cases r.trees.lookup method with
    | none => exact ⟨_, rfl⟩
    | some root =>
      cases hh : ((root.getValue (lookupQueryPath r path)).handle) with
      | none => simp only [hh]; exact ⟨_, rfl⟩
      | some h => simp only [hh]; exact ⟨_, rfl⟩

/-- Router for the C10 witness. -/
def c10router : RouterM :=
  { trees := [], redirectTrailingSlash := true,
    redirectFixedPath := true, handleMethodNotAllowed := true,
    handleOPTIONS := true, globalOPTIONS := none, globalAllowed := "",
    notFound := none, methodNotAllowed := none,
    supportedLangs := ["en"], defaultLang := "en" }

/-- C10, witness: the fault at the concrete empty path and success at a
concrete non-empty path. -/
theorem C10_lookup_empty_path_witness :
    Lookup c10router "GET" "" = .error "runtime error: index out of range"
    ∧ ∃ v, Lookup c10router "GET" "/x" = .ok v :=
  ⟨(C10_lookup_empty_path c10router "GET" "").1 rfl,
   (C10_lookup_empty_path c10router "GET" "/x").2 (by decide)⟩

/-- Header Set followed by Get of the same key yields the set value. -/
theorem headerGetList_set_self (h : List (String × List String)) (k v : String) :
    headerGetList (headerSetList h k v) k = v := by
  induction h with
  | nil => simp [headerSetList, headerGetList]
  | cons p t ih =>
    obtain ⟨k', vs⟩ := p
    by_cases hk : k' = k
    · simp [headerSetList, headerGetList, hk]
    · simp [headerSetList, headerGetList, hk, ih]

/-- Header Set leaves other keys untouched. -/
theorem headerGetList_set_other (h : List (String × List String)) (k k' v : String)
    (hne : k' ≠ k) : headerGetList (headerSetList h k v) k' = headerGetList h k' := by
  induction h with
  | nil => simp [headerSetList, headerGetList, Ne.symm hne]
  | cons p t ih =>
    obtain ⟨k0, vs⟩ := p
    by_cases hk : k0 = k
    · subst hk
      have hk0 : ¬ k0 = k' := fun hc => hne hc.symm
      simp [headerSetList, headerGetList, hk0]
    · by_cases hk' : k0 = k'
      · simp [headerSetList, headerGetList, hk, hk', hne]
      · simp [headerSetList, headerGetList, hk, hk', ih]

/-- The code httpRedirect commits is the code it was asked for. -/
theorem httpRedirect_code (w : RW) (m u : String) (c : Nat) :
    (httpRedirect w m u c).code = c := by
  simp only [httpRedirect]
  split_ifs <;> rfl

/-- The Location header httpRedirect commits is the target it was asked
for. -/
theorem httpRedirect_location (w : RW) (m u : String) (c : Nat) :
    (httpRedirect w m u c).headerGet "Location" = u := by
  simp only [httpRedirect, RW.headerGet, RW.headerSet, RW.writeHeader, RW.write]
  split_ifs <;>
    simp [headerGetList_set_other _ "Content-Type" "Location" _ (by decide),
      headerGetList_set_self]

/-- C5.  Redirect status codes: a trailing-slash (TSR) redirect and a
case-fix redirect use 301 when the request method is GET and 308 for every
other method (router.go lines 552-581); a language-prefix redirect
(`redirLang`, router.go lines 710-717) uses 301 for GET and 307 for every
other method. -/
theorem C5_redirect_codes :
    ∀ (r : RouterM) (req : Request) (o : RaceOutcome) (root : TrieEntry)
      (fixed : String) (w : RW) (lang : String),
      (r.trees.lookup req.method = some root →
       (root.getValue req.path).handle = none →
       req.method ≠ "CONNECT" → req.path ≠ "/" →
       (root.getValue req.path).tsr = true → r.redirectTrailingSlash = true →
       (ServeHTTP r req o).code = if req.method = "GET" then 301 else 308)
      ∧ (r.trees.lookup req.method = some root →
         (root.getValue req.path).handle = none →
         req.method ≠ "CONNECT" → req.path ≠ "/" →
         (root.getValue req.path).tsr = false →
         r.redirectFixedPath = true → root.caseFix req.path = some fixed →
         (ServeHTTP r req o).code = (if req.method = "GET" then 301 else 308)
         ∧ (ServeHTTP r req o).headerGet "Location" = fixed)
      ∧ (((redirLang w req lang).1).code = (if req.method = "GET" then 301 else 307)
         ∧ ((redirLang w req lang).1).headerGet "Location" = "/" ++ lang ++ req.path) := by
  intro r req o root fixed w lang
  refine ⟨?_, ?_, ?_⟩
  · intro h1 h2 h3 h4 h5 h6
    simp only [ServeHTTP, h1, h2, h3, h4, h5, h6, ne_eq, not_false_iff, true_and,
      and_true, if_true, ite_true, not_true, if_pos]
    rw [httpRedirect_code]
    by_cases hm : req.method = "GET" <;> simp [hm]
  · intro h1 h2 h3 h4 h5 h6 h7
    simp only [ServeHTTP, h1, h2, h3, h4, h5, h6, h7, ne_eq, not_false_iff, true_and,
      and_true, if_true, ite_true, false_and, if_false, ite_false, Bool.false_eq_true]
    constructor
    · rw [httpRedirect_code]
      by_cases hm : req.method = "GET" <;> simp [hm]
    · rw [httpRedirect_location]
  · constructor
    · simp only [redirLang]
      rw [httpRedirect_code]
      by_cases hm : req.method = "GET" <;> simp [hm]
    · simp only [redirLang]
      rw [httpRedirect_location]

/-- Trie entry for the C5 witness: "/dir" gets a TSR recommendation, and
"/PATH" has a case-insensitive fix to "/path". -/
def c5entry : TrieEntry :=
  ⟨fun p => if p = "/dir" then ⟨none, none, false, true⟩ else TrieRes.empty,
   fun p => if p = "/PATH" then some "/path" else none⟩

/-- Router for the C5 witness. -/
def c5router : RouterM :=
  { trees := [("GET", c5entry), ("PATCH", c5entry)], redirectTrailingSlash := true,
    redirectFixedPath := true, handleMethodNotAllowed := true,
    handleOPTIONS := true, globalOPTIONS := none, globalAllowed := "",
    notFound := none, methodNotAllowed := none,
    supportedLangs := ["en"], defaultLang := "" }

/-- C5, witness: concrete TSR redirect for GET (301), concrete case-fix
redirect for PATCH (308), and both language-redirect codes. -/
theorem C5_redirect_codes_witness :
    (ServeHTTP c5router ⟨"GET", "/dir", "", none⟩ .handlerDone).code = 301
    ∧ (ServeHTTP c5router ⟨"PATCH", "/PATH", "", none⟩ .handlerDone).code = 308
    ∧ ((redirLang RW.new ⟨"GET", "/lang", "", none⟩ "en").1).code = 301
    ∧ ((redirLang RW.new ⟨"POST", "/lang", "", none⟩ "pt").1).code = 307 := by
  refine ⟨?_, ?_, ?_, ?_⟩
  · exact ((C5_redirect_codes c5router ⟨"GET", "/dir", "", none⟩ .handlerDone c5entry
      "" RW.new "en").1 rfl rfl (by decide) (by decide) rfl rfl).trans (by decide)
  · exact (((C5_redirect_codes c5router ⟨"PATCH", "/PATH", "", none⟩ .handlerDone c5entry
      "/path" RW.new "en").2.1 rfl rfl (by decide) (by decide) rfl rfl rfl).1).trans (by decide)
  · exact ((C5_redirect_codes c5router ⟨"GET", "/lang", "", none⟩ .handlerDone c5entry
      "" RW.new "en").2.2.1).trans (by decide)
  · exact ((C5_redirect_codes c5router ⟨"POST", "/lang", "", none⟩ .handlerDone c5entry
      "" RW.new "pt").2.2.1).trans (by decide)

/-- When the Accept-Language header is absent and the URL's first segment
is not a supported language (or the path has no segments), selectLang
writes the language-prefix redirect for the default language into the
buffer and returns with the path untouched. -/
theorem selectLang_redirect (r : RouterM) (w : RW) (req : Request)
    (ha : req.acceptLanguage = "") (hstar : req.path ≠ "*")
    (hsplit : match splitPath req.path with
              | [] => True
              | c :: _ => c ∉ r.supportedLangs) :
    selectLang r w req
      = (httpRedirect w req.method ("/" ++ r.defaultLang ++ req.path)
           (if req.method ≠ "GET" then 307 else 301),
         { req with uaLang := some r.defaultLang,
                    path := "/" ++ r.defaultLang ++ req.path },
         req.path) := by
  cases hsp : splitPath req.path with
  | nil =>
    simp only [selectLang, acceptedLanguage, ha, if_pos rfl, hstar, ne_eq,
      not_false_iff, if_true, ite_true, hsp, redirLang]
  | cons c rest =>
    rw [hsp] at hsplit
    simp only [selectLang, acceptedLanguage, ha, if_pos rfl, hstar, ne_eq,
      not_false_iff, if_true, ite_true, hsp, redirLang, hsplit, if_false, ite_false]

/-- C1, amended.  When the method's trie yields a handler for an
i18n-flagged route, a default language is configured, and language
resolution takes its redirect branch (no Accept-Language header and no
recognized language prefix in the URL), the redirect is written into the
response buffer but dispatch does **not** stop: the matched handler is
still executed against the buffer that already holds the redirect (either
synchronously when params are present, or under the cancellation race
otherwise), and the committed response is whatever that execution leaves
in the buffer. -/
theorem C1_amended :
    ∀ (r : RouterM) (req : Request) (o : RaceOutcome) (root : TrieEntry) (h : Handler),
      r.trees.lookup req.method = some root →
      (root.getValue req.path).handle = some h →
      r.defaultLang ≠ "" →
      (root.getValue req.path).i18n = true →
      req.acceptLanguage = "" →
      req.path ≠ "*" →
      (match splitPath req.path with
       | [] => True
       | c :: _ => c ∉ r.supportedLangs) →
      ServeHTTP r req o =
        (match (root.getValue req.path).ps with
         | some _ => h (httpRedirect RW.new req.method
             ("/" ++ r.defaultLang ++ req.path)
             (if req.method ≠ "GET" then 307 else 301))
         | none => runRace h (httpRedirect RW.new req.method
             ("/" ++ r.defaultLang ++ req.path)
             (if req.method ≠ "GET" then 307 else 301)) o) := by
  intro r req o root h h1 h2 hd hi ha hstar hsplit
  simp only [ServeHTTP, h1, h2, hd, hi, ne_eq, not_false_iff, and_self, if_true,
    ite_true, selectLang_redirect r RW.new req ha hstar hsplit]

/-- C1, witness for the amended theorem: the concrete scenario of
`C1_counterexample`, where the committed response is the handler applied
to the redirect-written buffer. -/
theorem C1_amended_witness :
    ServeHTTP c1router c1req .handlerDone
      = runRace c1handler (httpRedirect RW.new "GET" "/en/lang" 301) .handlerDone := by
  have h := C1_amended c1router c1req .handlerDone c1entry c1handler rfl rfl
    (by decide) rfl rfl (by decide)
    (show ("lang" : String) ∉ c1router.supportedLangs by decide)
  exact h

/-- C8, amended.  With a default language configured, the path Lookup hands
to the trie is: when the first segment is a supported language and at
least one more segment follows, the language-stripped path with the
original trailing slash restored; in every other case the original path —
but with an extra "/" appended whenever the original path ended in "/"
(router.go lines 398-400 append the slash outside the stripped branch), so
an unstripped trailing-slash path is queried with a doubled slash rather
than with its language-free form.  The query itself is pure: `Lookup`
reads the router and returns, mutating nothing (the Go source touches only
the params free-list, an optimization with no observable router state). -/
theorem C8_amended :
    ∀ (r : RouterM) (path : String), r.defaultLang ≠ "" →
      (∀ c rest, splitPath path = c :: rest → c ∈ r.supportedLangs → rest ≠ [] →
        lookupQueryPath r path
          = "/" ++ strIntercalate "/" rest ++ (if strEndsWith path "/" then "/" else ""))
      ∧ ((match splitPath path with
          | [] => True
          | c :: rest => c ∉ r.supportedLangs ∨ rest = []) →
        lookupQueryPath r path = path ++ (if strEndsWith path "/" then "/" else "")) := by
  intro r path hd
  constructor
  · intro c rest hsp hmem hrest
    simp only [lookupQueryPath, hd, ne_eq, not_false_iff, if_true, ite_true, hsp,
      hmem, hrest, and_self, if_pos]
    by_cases he : strEndsWith path "/" = true
    · simp [he, String.append_assoc]
    · simp only [Bool.not_eq_true] at he
      simp [he, String.append_empty]
  · intro hcase
    cases hsp : splitPath path with
    | nil =>
      simp only [lookupQueryPath, hd, ne_eq, not_false_iff, if_true, ite_true, hsp]
      by_cases he : strEndsWith path "/" = true
      · simp [he]
      · simp only [Bool.not_eq_true] at he
        simp [he, String.append_empty]
    | cons c rest =>
      rw [hsp] at hcase
      have hcond : ¬(c ∈ r.supportedLangs ∧ rest ≠ []) := by
        rcases hcase with h | h
        · exact fun hc => h hc.1
        · exact fun hc => hc.2 h
      simp only [lookupQueryPath, hd, ne_eq, not_false_iff, if_true, ite_true, hsp,
        hcond, if_false, ite_false, if_neg hcond]
      by_cases he : strEndsWith path "/" = true
      · simp [he]
      · simp only [Bool.not_eq_true] at he
        simp [he, String.append_empty]

/-- C8, witness for the amended theorem: the language-prefixed path
"/en/foo/" is stripped to "/foo" and the consumed trailing slash restored,
so the trie is queried with "/foo/". -/
theorem C8_amended_witness :
    lookupQueryPath c8router "/en/foo/" = "/foo/" := by
  have h := (C8_amended c8router "/en/foo/" (by decide)).1 "en" ["foo"]
    (by decide) (by decide) (by decide)
  exact h.trans rfl

/-- C6, amended.  In the comparator that defines the ranked order (an
element ranks below another exactly when `less` holds of the pair): a
wildcard tag (`*` or `*/*`) as the left argument always ranks below,
regardless of quality; and any tag — wildcard or not — with strictly lower
quality ranks below a non-wildcard tag (so among non-wildcard tags higher
quality wins, and a wildcard ranks below every non-wildcard of strictly
higher quality).  When the wildcard's quality is higher than the
non-wildcard's, however, the non-wildcard *also* compares below the
wildcard (see the counterexample), so the produced order need not place
wildcards last. -/
theorem C6_amended :
    ∀ (l r : TypeParam),
      ((l.type = "*/*" ∨ l.type = "*") → less l r = true)
      ∧ (¬(l.type = "*/*" ∨ l.type = "*") → r.Q < l.Q →
         less l r = false ∧ less r l = true) := by
  intro l r
  constructor
  · intro hw
    simp only [less, if_pos hw]
  · intro hnw hq
    constructor
    · have hne : ¬ (l.Q = r.Q) := by omega
      simp only [less, if_neg hnw, if_neg hne]
      exact decide_eq_false (by omega)
    · by_cases hw : (r.type = "*/*" ∨ r.type = "*")
      · simp only [less, if_pos hw]
      · have hne : ¬ (r.Q = l.Q) := by omega
        simp only [less, if_neg hw, if_neg hne]
        exact decide_eq_true (by omega)

/-- C6, witness for the amended theorem: a wildcard on the left always
compares below; a lower-quality wildcard ranks below a non-wildcard; a
lower-quality non-wildcard ranks below a higher-quality non-wildcard. -/
theorem C6_amended_witness :
    less ⟨"*", 900⟩ ⟨"en", 100⟩ = true
    ∧ (less ⟨"en", 500⟩ ⟨"*", 200⟩ = false ∧ less ⟨"*", 200⟩ ⟨"en", 500⟩ = true)
    ∧ (less ⟨"en", 500⟩ ⟨"fr", 100⟩ = false ∧ less ⟨"fr", 100⟩ ⟨"en", 500⟩ = true) :=
  ⟨(C6_amended ⟨"*", 900⟩ ⟨"en", 100⟩).1 (Or.inr rfl),
   (C6_amended ⟨"en", 500⟩ ⟨"*", 200⟩).2 (by decide) (by decide),
   (C6_amended ⟨"en", 500⟩ ⟨"fr", 100⟩).2 (by decide) (by decide)⟩

/-- C4.  For a concrete path the Allow computation collects exactly the
registered methods — other than the one just tried and OPTIONS — whose
trie has an exact-match handler at the path; when the collection is
non-empty the header is the ascending lexicographic sort of the collected
methods together with the appended OPTIONS (so OPTIONS holds no fixed
position), joined by ", "; when the collection is empty the computation
yields "" and dispatch sets no Allow header and falls through to the 404
outcome (shown for the auto-OPTIONS branch). -/
theorem C4_allowed :
    ∀ (r : RouterM) (path reqMethod : String) (req : Request) (o : RaceOutcome),
      (path ≠ "*" →
        (∀ m, m ∈ allowedCollect r path reqMethod ↔
           ∃ t, (m, t) ∈ r.trees ∧ ¬(m = reqMethod ∨ m = "OPTIONS")
             ∧ ((t.getValue path).handle).isSome = true)
        ∧ (allowedCollect r path reqMethod = [] → allowed r path reqMethod = "")
        ∧ (allowedCollect r path reqMethod ≠ [] →
           ∃ l, allowed r path reqMethod = strIntercalate ", " l
             ∧ l.Sorted (· ≤ ·)
             ∧ "OPTIONS" ∈ l
             ∧ (∀ m, m ∈ l ↔ m = "OPTIONS" ∨ m ∈ allowedCollect r path reqMethod)))
      ∧ (req.method = "OPTIONS" → r.handleOPTIONS = true →
         r.trees.lookup req.method = none →
         req.path ≠ "*" →
         allowedCollect r req.path "OPTIONS" = [] →
         r.notFound = none →
         ServeHTTP r req o = httpError RW.new "404 page not found" 404
         ∧ (ServeHTTP r req o).headerGet "Allow" = "") := by
  intro r path reqMethod req o
  constructor
  · intro hstar
    refine ⟨?_, ?_, ?_⟩
    · intro m
      constructor
      · intro hm
        rw [allowedCollect, List.mem_filterMap] at hm
        obtain ⟨⟨m', t⟩, hmem, hf⟩ := hm
        by_cases hc1 : m' = reqMethod ∨ m' = "OPTIONS"
        · simp [hc1] at hf
        · by_cases hc2 : ((t.getValue path).handle).isSome = true
          · simp only [hc1, if_false, ite_false, hc2, if_true, ite_true,
              Option.some.injEq, if_neg hc1, if_pos hc2] at hf
            subst hf
            exact ⟨t, hmem, hc1, hc2⟩
          · simp [hc1, hc2] at hf
      · rintro ⟨t, hmem, hc1, hc2⟩
        rw [allowedCollect, List.mem_filterMap]
        exact ⟨(m, t), hmem, by simp [hc1, hc2]⟩
    · intro hempty
      simp [allowed, hstar, allowedJoin, hempty]
    · intro hne
      refine ⟨List.insertionSort (· ≤ ·)
        (allowedCollect r path reqMethod ++ ["OPTIONS"]), ?_, ?_, ?_, ?_⟩
      · simp [allowed, hstar, allowedJoin, hne]
      · exact List.sorted_insertionSort _ _
      · rw [(List.perm_insertionSort _ _).mem_iff]
        exact List.mem_append_right _ (List.mem_singleton.mpr rfl)
      · intro m
        rw [(List.perm_insertionSort _ _).mem_iff, List.mem_append,
          List.mem_singleton]
        exact or_comm
  · intro hmopt hopts hlkp hstar hempty hnf
    have hall : allowed r req.path "OPTIONS" = "" := by
      simp [allowed, hstar, allowedJoin, hempty]
    have hlkp' : List.lookup "OPTIONS" r.trees = none := hmopt ▸ hlkp
    have h1 : ServeHTTP r req o = httpError RW.new "404 page not found" 404 := by
      simp only [ServeHTTP, hmopt, hlkp', fallbackTail, hopts, and_self, if_true,
        ite_true, hall, ne_eq, not_true, if_false, ite_false, notFoundTail, hnf,
        not_true_eq_false]
    refine ⟨h1, ?_⟩
    rw [h1]
    decide

/-- Trie entry for the C4 witness: POST and DELETE have a handler at
"/path" and nothing else. -/
def c4entry : TrieEntry :=
  ⟨fun p => if p = "/path" then ⟨some (fun w => w), none, false, false⟩ else TrieRes.empty,
   fun _ => none⟩

/-- Router for the C4 witness. -/
def c4router : RouterM :=
  { trees := [("POST", c4entry), ("DELETE", c4entry)], redirectTrailingSlash := true,
    redirectFixedPath := true, handleMethodNotAllowed := true,
    handleOPTIONS := true, globalOPTIONS := none, globalAllowed := "",
    notFound := none, methodNotAllowed := none,
    supportedLangs := ["en"], defaultLang := "" }

/-- Request for the C4 witness's 404 branch: OPTIONS on a path no method
matches. -/
def c4optreq : Request := { method := "OPTIONS", path := "/nope", acceptLanguage := "" }

/-- C4, witness: at the concrete router, the non-empty branch produces the
sorted joined header for GET /path, and the empty branch falls through to
404 with no Allow header for OPTIONS /nope. -/
theorem C4_allowed_witness :
    (∃ l, allowed c4router "/path" "GET" = strIntercalate ", " l
       ∧ l.Sorted (· ≤ ·)
       ∧ "OPTIONS" ∈ l
       ∧ (∀ m, m ∈ l ↔ m = "OPTIONS" ∨ m ∈ allowedCollect c4router "/path" "GET"))
    ∧ ServeHTTP c4router c4optreq .handlerDone = httpError RW.new "404 page not found" 404
    ∧ (ServeHTTP c4router c4optreq .handlerDone).headerGet "Allow" = "" :=
  ⟨((C4_allowed c4router "/path" "GET" c4optreq .handlerDone).1 (by decide)).2.2
      (by decide),
   (C4_allowed c4router "/path" "GET" c4optreq .handlerDone).2 rfl rfl rfl
      (by decide) (by decide) rfl |>.1,
   (C4_allowed c4router "/path" "GET" c4optreq .handlerDone).2 rfl rfl rfl
      (by decide) (by decide) rfl |>.2⟩

end HR
